import Mathlib

/-!
Shallow embedding of the `monitorFS` file watcher (`filewatcher-v8.go`, with the
rename/move logging of `filewatcher-v2.go`) and proofs about its behaviour.

Modelling conventions:
* Go strings are Lean `String`s; the per-rune operations `strings.ToLower` and
  `strings.TrimSpace` are embedded as explicit `List Char` traversals
  (`goToLower`, `goTrimSpace`), with whitespace restricted to the ASCII
  whitespace characters that occur in practice.
* The `AllowedExtensions` Go map (a set of strings) is embedded as the list of
  its keys, queried with `List.contains`.
* Filesystem and OS effects (`os.Remove`, `os.Stat`, `beeep.Notify`,
  `watcher.Add`) are embedded by passing their outcomes in as explicit oracle
  arguments and recording each call the program makes as an `FsAction` in an
  emitted action list, in program order.
* The fsnotify operation bitmask is a `Nat` with the fsnotify bit constants.
-/

/-- One step of scanning the reversed character list of a path, as in Go's
`filepath.Ext`: walking backwards, stop without an extension at a path
separator, and return the suffix from the first dot found.  `acc` holds the
characters already passed (in forward order). -/
def extRevAux : List Char → List Char → Option (List Char)
  | [], _ => none
  | c :: rest, acc =>
    if c = '/' then none
    else if c = '.' then some (c :: acc)
    else extRevAux rest (c :: acc)

/-- Embedding of Go's `filepath.Ext`: the suffix beginning at the final dot in
the final slash-separated element of the path, including the dot; empty if
there is no dot. -/
def filepathExt (path : String) : String :=
  match extRevAux path.data.reverse [] with
  | none => ⟨[]⟩
  | some l => ⟨l⟩

/-- Embedding of Go's `strings.ToLower`, which lowercases each rune. -/
def goToLower (s : String) : String :=
  ⟨s.data.map Char.toLower⟩

/-- Drop leading whitespace characters from a character list. -/
def dropLeadingSpace : List Char → List Char
  | [] => []
  | c :: cs => if c.isWhitespace then dropLeadingSpace cs else c :: cs

/-- Embedding of Go's `strings.TrimSpace` (restricted to ASCII whitespace):
drop whitespace from both ends. -/
def goTrimSpace (s : String) : String :=
  ⟨((dropLeadingSpace ((dropLeadingSpace s.data).reverse)).reverse)⟩

/-- Embedding of `loadAllowedExtensions` (filewatcher-v8.go, lines 87-108).
The allowlist file is given as its list of lines (the scanner's output); each
line is trimmed and, when nonempty, becomes a key of the `AllowedExtensions`
set, embedded as the list of kept entries. -/
def loadAllowedExtensions (lines : List String) : List String :=
  (lines.map goTrimSpace).filter (fun ext => ext != "")

/-- Embedding of `isAllowedExtension` (filewatcher-v8.go, lines 201-205): the
file's extension is lower-cased and looked up in the loaded set. -/
def isAllowedExtension (fileName : String) (allowedExtensions : List String) : Bool :=
  allowedExtensions.contains (goToLower (filepathExt fileName))

/-- fsnotify operation bit for Create. -/
def fsnotifyCreate : Nat := 1
/-- fsnotify operation bit for Write. -/
def fsnotifyWrite : Nat := 2
/-- fsnotify operation bit for Remove. -/
def fsnotifyRemove : Nat := 4
/-- fsnotify operation bit for Rename. -/
def fsnotifyRename : Nat := 8
/-- fsnotify operation bit for Chmod. -/
def fsnotifyChmod : Nat := 16

/-- One configured token's test from the `switch` in `containsEvent`
(filewatcher-v8.go, lines 172-198): the token is lower-cased and, when it names
a known kind, the event's bitmask is tested against that kind's bit. -/
def tokenMatches (e : String) (op : Nat) : Bool :=
  let t := goToLower e
  if t = "create" then op &&& fsnotifyCreate == fsnotifyCreate
  else if t = "write" then op &&& fsnotifyWrite == fsnotifyWrite
  else if t = "remove" then op &&& fsnotifyRemove == fsnotifyRemove
  else if t = "rename" then op &&& fsnotifyRename == fsnotifyRename
  else if t = "chmod" then op &&& fsnotifyChmod == fsnotifyChmod
  else false

/-- Embedding of `containsEvent` (filewatcher-v8.go, lines 172-198): loop over
the configured tokens, returning true at the first one whose kind's bit is set
in the event's operation bitmask. -/
def containsEvent (events : List String) (op : Nat) : Bool :=
  match events with
  | [] => false
  | e :: rest => tokenMatches e op || containsEvent rest op

/-- The semantic operation kinds recognised by the filter. -/
inductive EventKind where
  | create
  | write
  | remove
  | rename
  | chmod
deriving DecidableEq

/-- The fsnotify bit of a kind. -/
def kindBit : EventKind → Nat
  | .create => fsnotifyCreate
  | .write => fsnotifyWrite
  | .remove => fsnotifyRemove
  | .rename => fsnotifyRename
  | .chmod => fsnotifyChmod

/-- The kind configured by a token, if any: the token is matched
case-insensitively, unknown tokens configure nothing. -/
def tokenKind (e : String) : Option EventKind :=
  let t := goToLower e
  if t = "create" then some .create
  else if t = "write" then some .write
  else if t = "remove" then some .remove
  else if t = "rename" then some .rename
  else if t = "chmod" then some .chmod
  else none

/-- Embedding of fsnotify's `Op.String`: the names of the set bits, in the
order CREATE, REMOVE, WRITE, RENAME, CHMOD, joined with a bar (the leading bar
of the accumulated list is dropped). -/
def opString (op : Nat) : String :=
  let l :=
    (if op &&& fsnotifyCreate == fsnotifyCreate then ("|CREATE").data else [])
    ++ (if op &&& fsnotifyRemove == fsnotifyRemove then ("|REMOVE").data else [])
    ++ (if op &&& fsnotifyWrite == fsnotifyWrite then ("|WRITE").data else [])
    ++ (if op &&& fsnotifyRename == fsnotifyRename then ("|RENAME").data else [])
    ++ (if op &&& fsnotifyChmod == fsnotifyChmod then ("|CHMOD").data else [])
  match l with
  | [] => ⟨[]⟩
  | _ :: rest => ⟨rest⟩

/-- A raw fsnotify event: a path and an operation bitmask (fsnotify events
carry no previous path). -/
structure Event where
  name : String
  op : Nat
deriving DecidableEq

/-- Outcome of the `os.Remove` call in `handleDisallowedFile`: success, failure
with ENOENT (entry no longer exists), or any other failure with its message. -/
inductive RemoveResult where
  | ok
  | enoent
  | otherErr (msg : String)
deriving DecidableEq

/-- Outcome of the `os.Stat` call in the directory-registration block: the
entry is a directory, a non-directory, or the stat itself failed. -/
inductive StatRes where
  | isDir
  | isFile
  | statError (msg : String)
deriving DecidableEq

/-- An observable call the event loop makes: a log line at some level, an
`os.Remove` call, a `beeep.Notify` call, or a `watcher.Add` call. -/
inductive FsAction where
  | logInfo (line : String)
  | logWarn (line : String)
  | logError (line : String)
  | removeFile (path : String)
  | notify (title body : String)
  | watchAdd (path : String)
deriving DecidableEq

/-- Embedding of `handleDisallowedFile` (filewatcher-v8.go, lines 208-223):
call `os.Remove`; on ENOENT return success, on any other failure return the
wrapped error; on success call `beeep.Notify` and return its wrapped error if
delivery failed.  The result is the list of calls made, in order, and the
returned error (`none` = nil). -/
def handleDisallowedFile (fileName : String) (removeRes : RemoveResult)
    (notifyRes : Option String) : List FsAction × Option String :=
  match removeRes with
  | .enoent => ([FsAction.removeFile fileName], none)
  | .otherErr m =>
    ([FsAction.removeFile fileName], some ("could not remove disallowed file: " ++ m))
  | .ok =>
    ([FsAction.removeFile fileName,
      FsAction.notify ("Disallowed File Alert")
        ("A file with disallowed extension was created and removed: " ++ fileName)],
     match notifyRes with
     | none => none
     | some m => some ("failed to send notification: " ++ m))

/-- Embedding of the allowlist-enforcement block of `processEvents`
(filewatcher-v8.go, lines 140-147): if the extension is not allowed, log a
warning, run `handleDisallowedFile`, and log an error if it returned one. -/
def enforcementBlock (allowedExtensions : List String) (name : String)
    (removeRes : RemoveResult) (notifyRes : Option String) : List FsAction :=
  if !(isAllowedExtension name allowedExtensions) then
    let r := handleDisallowedFile name removeRes notifyRes
    FsAction.logWarn ("Disallowed file extension: " ++ name) ::
      r.1 ++
        (match r.2 with
         | some m => [FsAction.logError ("Failed to handle disallowed file: " ++ m)]
         | none => [])
  else []

/-- Embedding of the filter-gated block of `processEvents` (filewatcher-v8.go,
lines 136-149): when the event matches the configured tokens, log the event
line and, for Create events, run the allowlist enforcement. -/
def filterBlock (events allowedExtensions : List String) (ev : Event)
    (removeRes : RemoveResult) (notifyRes : Option String) : List FsAction :=
  if containsEvent events ev.op then
    FsAction.logInfo ("Event: " ++ opString ev.op ++ " on file: " ++ ev.name) ::
      (if ev.op &&& fsnotifyCreate == fsnotifyCreate then
        enforcementBlock allowedExtensions ev.name removeRes notifyRes
      else [])
  else []

/-- Embedding of the directory-registration block of `processEvents`
(filewatcher-v8.go, lines 152-160): for Create events, stat the path and, when
it is a directory, call `watcher.Add`, logging an error if that fails
(`addRes`: `none` = success, `some m` = failure message). -/
def dirBlock (ev : Event) (stat : StatRes) (addRes : Option String) : List FsAction :=
  if ev.op &&& fsnotifyCreate == fsnotifyCreate then
    match stat with
    | .isDir =>
      FsAction.watchAdd ev.name ::
        (match addRes with
         | some m => [FsAction.logError ("Failed to add new directory to watcher: " ++ m)]
         | none => [])
    | _ => []
  else []

/-- One iteration of `processEvents` on an event received from the events
channel (filewatcher-v8.go, lines 130-160): the filter-gated block followed by
the unconditional directory-registration block. -/
def processEventsStep (events allowedExtensions : List String) (ev : Event)
    (stat : StatRes) (removeRes : RemoveResult) (notifyRes addRes : Option String) :
    List FsAction :=
  filterBlock events allowedExtensions ev removeRes notifyRes
    ++ dirBlock ev stat addRes

/-- One entry visited by `filepath.Walk` during the initial recursive walk: its
path and whether it is a directory.  The walk is embedded by its visit
sequence, in visit order. -/
structure WalkEntry where
  path : String
  isDir : Bool
deriving DecidableEq

/-- Embedding of `addWatchRecursive` (filewatcher-v8.go, lines 111-124): visit
each entry in order; for a directory, call `watcher.Add` (outcome given by the
oracle `ok`) and abort the whole walk with the wrapped error on the first
failure (`filepath.Walk` stops when the callback returns a non-nil error).  On
success, return the registered directory paths in order. -/
def addWatchRecursive (ok : String → Bool) : List WalkEntry → Except String (List String)
  | [] => .ok []
  | e :: rest =>
    if e.isDir then
      if ok e.path then
        match addWatchRecursive ok rest with
        | .ok l => .ok (e.path :: l)
        | .error m => .error m
      else .error ("could not add directory to watcher: " ++ e.path)
    else addWatchRecursive ok rest

/-- Outcome of the startup phase after the allowlist has been loaded and the
watcher created: either `logger.Fatalf` terminated the process, or the watcher
is running with its initial watch set. -/
inductive StartupOutcome where
  | fatal (msg : String)
  | running (watched : List String)
deriving DecidableEq

/-- Embedding of the startup call site of `addWatchRecursive` in `main`
(filewatcher-v8.go, lines 74-77): any error from the walk is fatal
(`logger.Fatalf` exits the process); otherwise the event loop starts with the
registered directories. -/
def startupWatch (ok : String → Bool) (entries : List WalkEntry) : StartupOutcome :=
  match addWatchRecursive ok entries with
  | .error e => .fatal ("Failed to add directory to watcher: " ++ e)
  | .ok l => .running l

/-- One input serviced by the `select` in `processEvents` (filewatcher-v8.go,
lines 129-167): an event from the events channel (with the oracles for the OS
calls its handling makes), an error from the errors channel, or either channel
reporting closed. -/
inductive LoopInput where
  | fsEvent (ev : Event) (stat : StatRes) (removeRes : RemoveResult)
      (notifyRes addRes : Option String)
  | fsError (msg : String)
  | eventsClosed
  | errorsClosed
deriving DecidableEq

/-- Result of servicing one `select` arm: the calls made, the watch set
afterwards, and whether the loop keeps running (`processEvents` returns when a
channel reports closed). -/
structure StepResult where
  actions : List FsAction
  watchSet : List String
  keepRunning : Bool
deriving DecidableEq

/-- `watcher.Add` on the watch set: registering an already-registered path
leaves the set unchanged, otherwise the path is appended. -/
def insertWatch (S : List String) (p : String) : List String :=
  if S.contains p then S else S ++ [p]

/-- One iteration of the `processEvents` loop (filewatcher-v8.go, lines
128-168) over the watch set `S`: an event is processed by `processEventsStep`
and registers `ev.name` when the directory-registration block's `watcher.Add`
succeeds; an error from the errors channel is logged; a closed channel stops
the loop.  Nothing is ever removed from the watch set. -/
def loopStep (events allowedExtensions : List String) (S : List String) :
    LoopInput → StepResult
  | .fsEvent ev stat removeRes notifyRes addRes =>
    { actions := processEventsStep events allowedExtensions ev stat removeRes notifyRes addRes
      watchSet :=
        if (ev.op &&& fsnotifyCreate == fsnotifyCreate) && (stat == StatRes.isDir)
            && (addRes == none) then
          insertWatch S ev.name
        else S
      keepRunning := true }
  | .fsError m =>
    { actions := [FsAction.logError ("Watcher error: " ++ m)]
      watchSet := S
      keepRunning := true }
  | .eventsClosed => { actions := [], watchSet := S, keepRunning := false }
  | .errorsClosed => { actions := [], watchSet := S, keepRunning := false }

/-- The watch set after the loop services a sequence of inputs, starting from
`S`; the loop stops early when an iteration reports `keepRunning = false`. -/
def runLoop (events allowedExtensions : List String) (S : List String) :
    List LoopInput → List String
  | [] => S
  | i :: is =>
    let r := loopStep events allowedExtensions S i
    if r.keepRunning then runLoop events allowedExtensions r.watchSet is else r.watchSet

/-- Operation kinds of the polling watcher used by filewatcher-v2.go (the
`radovskyb/watcher` package); its events carry a path and, for rename and
move, the previous path. -/
inductive WOp where
  | create
  | remove
  | rename
  | move
  | write
deriving DecidableEq

/-- Embedding of the `switch event.Op` print statements of filewatcher-v2.go
(lines 68-86): the line printed for each operation kind (`fmt.Println` joins
its arguments with spaces). -/
def v2LogLine (op : WOp) (oldPath path : String) : String :=
  match op with
  | .create => "File created: " ++ path
  | .remove => "File removed: " ++ path
  | .rename => "File renamed: " ++ oldPath ++ " to " ++ path
  | .move => "File moved: " ++ oldPath ++ " to " ++ path
  | .write => "File modified: " ++ path

/-- `pat` is a leading segment of `l`. -/
def segStartsWith : List Char → List Char → Bool
  | [], _ => true
  | _ :: _, [] => false
  | p :: ps, c :: cs => if p = c then segStartsWith ps cs else false

/-- `pat` occurs contiguously somewhere in `l`. -/
def occursIn (pat : List Char) : List Char → Bool
  | [] => segStartsWith pat []
  | c :: cs => segStartsWith pat (c :: cs) || occursIn pat cs

/-- `pat` occurs contiguously in the string `s`. -/
def strOccursIn (pat s : String) : Bool :=
  occursIn pat.data s.data

/-- For a single bit `2 ^ i`, having the bit set (what the Go code tests with
`op & bit == bit`) is the same as the bitmask intersecting the bit. -/
theorem and_bit_iff (op i : Nat) :
    (op &&& 2 ^ i == 2 ^ i) = true ↔ op &&& 2 ^ i ≠ 0 := by
  rw [beq_iff_eq, Nat.and_two_pow]
  have h2 : (2 : Nat) ^ i ≠ 0 := (Nat.two_pow_pos i).ne'
  cases h : op.testBit i
  · simp only [Bool.toNat_false, Nat.zero_mul]
    simp [Ne.symm h2]
  · simp [h2]

/-- Every kind's bit test is equivalent to bitmask intersection. -/
theorem and_kindBit_iff (op : Nat) (k : EventKind) :
    (op &&& kindBit k == kindBit k) = true ↔ op &&& kindBit k ≠ 0 := by
  cases k
  · exact and_bit_iff op 0
  · exact and_bit_iff op 1
  · exact and_bit_iff op 2
  · exact and_bit_iff op 3
  · exact and_bit_iff op 4

/-- A configured token matches an event exactly when the token names a kind
whose bit intersects the event's bitmask. -/
theorem tokenMatches_iff (e : String) (op : Nat) :
    tokenMatches e op = true ↔ ∃ k, tokenKind e = some k ∧ op &&& kindBit k ≠ 0 := by
  have hc := and_kindBit_iff op .create
  have hw := and_kindBit_iff op .write
  have hr := and_kindBit_iff op .remove
  have hn := and_kindBit_iff op .rename
  have hm := and_kindBit_iff op .chmod
  simp only [kindBit] at hc hw hr hn hm
  simp only [tokenMatches, tokenKind]
  split_ifs <;> simp [kindBit, hc, hw, hr, hn, hm]

/-- `containsEvent` holds exactly when some configured token names a kind whose
bit intersects the event's bitmask. -/
theorem containsEvent_iff (events : List String) (op : Nat) :
    containsEvent events op = true ↔
      ∃ e ∈ events, ∃ k, tokenKind e = some k ∧ op &&& kindBit k ≠ 0 := by
  induction events with
  | nil => simp [containsEvent]
  | cons e rest ih => simp [containsEvent, Bool.or_eq_true, tokenMatches_iff, ih]

/-- A token's match result depends only on its lower-cased form. -/
theorem tokenMatches_toLower_congr (e1 e2 : String) (op : Nat)
    (h : goToLower e1 = goToLower e2) : tokenMatches e1 op = tokenMatches e2 op := by
  unfold tokenMatches
  rw [h]

/-- The filter decision depends only on the lower-cased forms of the
configured tokens. -/
theorem containsEvent_toLower_congr (l1 l2 : List String) (op : Nat)
    (h : l1.map goToLower = l2.map goToLower) :
    containsEvent l1 op = containsEvent l2 op := by
  induction l1 generalizing l2 with
  | nil => cases l2 with
    | nil => rfl
    | cons b bs => simp at h
  | cons a as ih =>
    cases l2 with
    | nil => simp at h
    | cons b bs =>
      simp only [List.map_cons, List.cons.injEq] at h
      simp [containsEvent, tokenMatches_toLower_congr a b op h.1, ih bs h.2]

/-- C6: an event is of interest if and only if its operation bitmask intersects
at least one configured kind; in particular a Create+Write combined event
matches whenever either Create or Write (or both) is among the configured
kinds, and configured tokens are matched case-insensitively. -/
theorem c6_containsEvent_spec :
    (∀ events op, containsEvent events op = true ↔
        ∃ e ∈ events, ∃ k, tokenKind e = some k ∧ op &&& kindBit k ≠ 0)
    ∧ (∀ l1 l2 op, l1.map goToLower = l2.map goToLower →
        containsEvent l1 op = containsEvent l2 op)
    ∧ (∀ events,
        (∃ e ∈ events, tokenKind e = some EventKind.create ∨ tokenKind e = some EventKind.write) →
        containsEvent events (fsnotifyCreate ||| fsnotifyWrite) = true) := by
  refine ⟨containsEvent_iff, containsEvent_toLower_congr, ?_⟩
  rintro events ⟨e, he, hk⟩
  rw [containsEvent_iff]
  rcases hk with h | h
  · exact ⟨e, he, .create, h, by decide⟩
  · exact ⟨e, he, .write, h, by decide⟩

/-- C6 witness: the token "CREATE" (upper case) makes a Create+Write event
match. -/
theorem c6_containsEvent_spec_witness :
    containsEvent ["CREATE"] (fsnotifyCreate ||| fsnotifyWrite) = true :=
  c6_containsEvent_spec.2.2 ["CREATE"] ⟨"CREATE", by decide, Or.inl (by decide)⟩

/-- The filter-gated block of `processEvents` contains no `watcher.Add`
call. -/
theorem watchAdd_not_mem_filterBlock (events aE : List String) (ev : Event)
    (removeRes : RemoveResult) (notifyRes : Option String) (p : String) :
    FsAction.watchAdd p ∉ filterBlock events aE ev removeRes notifyRes := by
  simp only [filterBlock, enforcementBlock]
  cases removeRes <;> cases notifyRes <;> simp [handleDisallowedFile]

/-- A `watcher.Add` action of a processed event comes only from the
directory-registration block. -/
theorem watchAdd_mem_step_iff (events aE : List String) (ev : Event) (stat : StatRes)
    (removeRes : RemoveResult) (notifyRes addRes : Option String) (p : String) :
    FsAction.watchAdd p ∈ processEventsStep events aE ev stat removeRes notifyRes addRes
      ↔ FsAction.watchAdd p ∈ dirBlock ev stat addRes := by
  simp [processEventsStep, List.mem_append,
    watchAdd_not_mem_filterBlock events aE ev removeRes notifyRes p]

/-- C1 (amended): whether the configured filter matches the event gates the log
line and the extension enforcement together, while registration of newly
created directories runs for every Create event regardless of the filter: an
event matching zero configured kinds contributes exactly the
directory-registration actions and no enforcement, a matched disallowed Create
event triggers the removal, and the `watcher.Add` actions are identical under
any two filter configurations. -/
theorem c1_enforcement_filter_gated :
    ∀ (events allowedExtensions : List String) (ev : Event) (stat : StatRes)
      (removeRes : RemoveResult) (notifyRes addRes : Option String),
      (containsEvent events ev.op = false →
        processEventsStep events allowedExtensions ev stat removeRes notifyRes addRes
          = dirBlock ev stat addRes)
      ∧ (∀ (events2 : List String) (p : String),
          FsAction.watchAdd p
              ∈ processEventsStep events allowedExtensions ev stat removeRes notifyRes addRes
            ↔ FsAction.watchAdd p
              ∈ processEventsStep events2 allowedExtensions ev stat removeRes notifyRes addRes)
      ∧ (containsEvent events ev.op = true →
          (ev.op &&& fsnotifyCreate == fsnotifyCreate) = true →
          isAllowedExtension ev.name allowedExtensions = false →
          FsAction.removeFile ev.name
            ∈ processEventsStep events allowedExtensions ev stat removeRes notifyRes addRes) := by
  intro events aE ev stat removeRes notifyRes addRes
  refine ⟨?_, ?_, ?_⟩
  · intro h
    simp [processEventsStep, filterBlock, h]
  · intro events2 p
    rw [watchAdd_mem_step_iff, watchAdd_mem_step_iff]
  · intro h1 h2 h3
    cases removeRes <;> cases notifyRes <;>
      simp [processEventsStep, filterBlock, enforcementBlock, handleDisallowedFile, h1, h2, h3]

/-- C1 counterexample: a Create event on a disallowed non-directory entry that
matches zero configured kinds (filter is just "write") produces no action at
all — the extension enforcement (warning, removal, notification) is skipped,
refuting the claim that enforcement is performed for every Create event. -/
theorem c1_filter_gates_enforcement_cex :
    containsEvent ["write"] fsnotifyCreate = false
    ∧ (fsnotifyCreate &&& fsnotifyCreate == fsnotifyCreate) = true
    ∧ isAllowedExtension ("a.xyz") (loadAllowedExtensions [".txt"]) = false
    ∧ processEventsStep ["write"] (loadAllowedExtensions [".txt"]) ⟨"a.xyz", fsnotifyCreate⟩
        .isFile .ok none none = [] := by
  refine ⟨by decide, by decide, by decide, by decide⟩

/-- C1 witness: for an unmatched Create event the step reduces to exactly the
directory-registration block. -/
theorem c1_enforcement_filter_gated_witness :
    processEventsStep ["write"] (loadAllowedExtensions [".txt"]) ⟨"d", fsnotifyCreate⟩
        .isDir .ok none none
      = dirBlock ⟨"d", fsnotifyCreate⟩ .isDir none :=
  (c1_enforcement_filter_gated ["write"] (loadAllowedExtensions [".txt"])
    ⟨"d", fsnotifyCreate⟩ .isDir .ok none none).1 (by decide)

/-- Full action trace of a matched, disallowed Create event on a file whose
removal succeeds: event log line, warning, removal, then one notification
referencing the path, then the error log line when notification delivery
failed. -/
theorem processEventsStep_disallowed_eq
    (events aE : List String) (ev : Event) (notifyRes addRes : Option String)
    (hm : containsEvent events ev.op = true)
    (hc : (ev.op &&& fsnotifyCreate == fsnotifyCreate) = true)
    (hd : isAllowedExtension ev.name aE = false) :
    processEventsStep events aE ev .isFile .ok notifyRes addRes =
      [FsAction.logInfo ("Event: " ++ opString ev.op ++ " on file: " ++ ev.name),
       FsAction.logWarn ("Disallowed file extension: " ++ ev.name),
       FsAction.removeFile ev.name,
       FsAction.notify ("Disallowed File Alert")
         ("A file with disallowed extension was created and removed: " ++ ev.name)]
      ++ (match notifyRes with
          | none => []
          | some m =>
            [FsAction.logError
              ("Failed to handle disallowed file: "
                ++ ("failed to send notification: " ++ m))]) := by
  cases notifyRes <;>
    simp [processEventsStep, filterBlock, enforcementBlock, handleDisallowedFile, dirBlock,
      hm, hc, hd]

/-- The directory-registration block never issues a notification. -/
theorem notify_not_mem_dirBlock (ev : Event) (stat : StatRes) (addRes : Option String)
    (t b : String) : FsAction.notify t b ∉ dirBlock ev stat addRes := by
  unfold dirBlock
  split
  · cases stat <;> cases addRes <;> simp
  · simp

/-- When the removal does not succeed, the filter-gated block issues no
notification. -/
theorem notify_not_mem_filterBlock_of_remove_failed (events aE : List String) (ev : Event)
    (removeRes : RemoveResult) (notifyRes : Option String) (t b : String)
    (h : removeRes ≠ RemoveResult.ok) :
    FsAction.notify t b ∉ filterBlock events aE ev removeRes notifyRes := by
  unfold filterBlock enforcementBlock
  cases removeRes with
  | ok => exact absurd rfl h
  | enoent => cases notifyRes <;> simp [handleDisallowedFile]
  | otherErr m => cases notifyRes <;> simp [handleDisallowedFile]

/-- When the removal does not succeed, no notification call is made anywhere in
the step. -/
theorem notify_not_mem_of_remove_failed (events aE : List String) (ev : Event)
    (stat : StatRes) (removeRes : RemoveResult) (notifyRes addRes : Option String)
    (t b : String) (h : removeRes ≠ RemoveResult.ok) :
    FsAction.notify t b ∉ processEventsStep events aE ev stat removeRes notifyRes addRes := by
  intro hmem
  simp only [processEventsStep] at hmem
  rcases List.mem_append.mp hmem with h1 | h2
  · exact notify_not_mem_filterBlock_of_remove_failed events aE ev removeRes notifyRes t b h h1
  · exact notify_not_mem_dirBlock ev stat addRes t b h2

/-- C3 (amended): for every Create event that matches the configured filter,
whose target is a file and whose extension is absent from the loaded set, the
step warns, removes the file, and — when the removal succeeds — issues exactly
one notification whose body references the file's path, positioned after the
removal; when the removal does not succeed, no notification is issued. -/
theorem c3_disallowed_create_actions :
    ∀ (events allowedExtensions : List String) (ev : Event) (notifyRes addRes : Option String),
      containsEvent events ev.op = true →
      (ev.op &&& fsnotifyCreate == fsnotifyCreate) = true →
      isAllowedExtension ev.name allowedExtensions = false →
      (processEventsStep events allowedExtensions ev .isFile .ok notifyRes addRes =
        [FsAction.logInfo ("Event: " ++ opString ev.op ++ " on file: " ++ ev.name),
         FsAction.logWarn ("Disallowed file extension: " ++ ev.name),
         FsAction.removeFile ev.name,
         FsAction.notify ("Disallowed File Alert")
           ("A file with disallowed extension was created and removed: " ++ ev.name)]
        ++ (match notifyRes with
            | none => []
            | some m =>
              [FsAction.logError
                ("Failed to handle disallowed file: "
                  ++ ("failed to send notification: " ++ m))]))
      ∧ (∀ (stat : StatRes) (removeRes : RemoveResult) (t b : String),
          removeRes ≠ RemoveResult.ok →
          FsAction.notify t b
            ∉ processEventsStep events allowedExtensions ev stat removeRes notifyRes addRes) := by
  intro events aE ev notifyRes addRes h1 h2 h3
  exact ⟨processEventsStep_disallowed_eq events aE ev notifyRes addRes h1 h2 h3,
    fun stat removeRes t b h =>
      notify_not_mem_of_remove_failed events aE ev stat removeRes notifyRes addRes t b h⟩

/-- C3 counterexample: with the filter configured as just "remove", a Create
event for the file "b.exe", whose extension is absent from the allowlist,
is handled with no removal and no notification at all — the claim fails for
Create events that match zero configured kinds. -/
theorem c3_unmatched_create_cex :
    isAllowedExtension ("b.exe") (loadAllowedExtensions [".txt"]) = false
    ∧ processEventsStep ["remove"] (loadAllowedExtensions [".txt"]) ⟨"b.exe", fsnotifyCreate⟩
        .isFile .ok none none = [] := by
  refine ⟨by decide, by decide⟩

/-- C3 witness: a matched disallowed creation is removed and notified once. -/
theorem c3_disallowed_create_actions_witness :
    processEventsStep ["create"] (loadAllowedExtensions [".txt"]) ⟨"payload.exe", fsnotifyCreate⟩
        .isFile .ok none none =
      [FsAction.logInfo ("Event: CREATE on file: payload.exe"),
       FsAction.logWarn ("Disallowed file extension: payload.exe"),
       FsAction.removeFile ("payload.exe"),
       FsAction.notify ("Disallowed File Alert")
         ("A file with disallowed extension was created and removed: payload.exe")] := by
  have h := (c3_disallowed_create_actions ["create"] (loadAllowedExtensions [".txt"])
    ⟨"payload.exe", fsnotifyCreate⟩ none none (by decide) (by decide) (by decide)).1
  exact h.trans (by decide)

/-- C4: removal failing with ENOENT is treated as success — the handler returns
nil, nothing is logged and no notification is sent — while any other removal
failure is surfaced: the handler returns the wrapped error, the caller logs it,
and no notification is sent (the file stays in place, since the remove call
failed). -/
theorem c4_remove_enoent_tolerated :
    ∀ (name : String) (notifyRes : Option String) (allowedExtensions : List String),
      (handleDisallowedFile name RemoveResult.enoent notifyRes
        = ([FsAction.removeFile name], none))
      ∧ (∀ m, handleDisallowedFile name (RemoveResult.otherErr m) notifyRes
          = ([FsAction.removeFile name], some ("could not remove disallowed file: " ++ m)))
      ∧ (isAllowedExtension name allowedExtensions = false →
          enforcementBlock allowedExtensions name RemoveResult.enoent notifyRes
            = [FsAction.logWarn ("Disallowed file extension: " ++ name),
               FsAction.removeFile name]
          ∧ ∀ m, enforcementBlock allowedExtensions name (RemoveResult.otherErr m) notifyRes
              = [FsAction.logWarn ("Disallowed file extension: " ++ name),
                 FsAction.removeFile name,
                 FsAction.logError
                   ("Failed to handle disallowed file: "
                     ++ ("could not remove disallowed file: " ++ m))]) := by
  intro name notifyRes aE
  refine ⟨rfl, fun m => rfl, fun hd => ⟨?_, fun m => ?_⟩⟩
  · simp [enforcementBlock, handleDisallowedFile, hd]
  · simp [enforcementBlock, handleDisallowedFile, hd]

/-- C4 witness: the enforcement block on an ENOENT removal logs the warning and
makes the remove call, and nothing else. -/
theorem c4_remove_enoent_tolerated_witness :
    enforcementBlock (loadAllowedExtensions [".txt"]) ("b.exe") RemoveResult.enoent none
      = [FsAction.logWarn ("Disallowed file extension: " ++ "b.exe"),
         FsAction.removeFile ("b.exe")] :=
  ((c4_remove_enoent_tolerated ("b.exe") none (loadAllowedExtensions [".txt"])).2.2
    (by decide)).1

/-- Characterization of membership after loading: the lower-cased file
extension must equal, verbatim, the trimmed form of some nonblank allowlist
line. -/
theorem isAllowedExtension_load_iff (lines : List String) (fileName : String) :
    isAllowedExtension fileName (loadAllowedExtensions lines) = true ↔
      ∃ line ∈ lines, goTrimSpace line ≠ ""
        ∧ goTrimSpace line = goToLower (filepathExt fileName) := by
  refine List.elem_iff.trans ?_
  simp only [loadAllowedExtensions, List.mem_filter, List.mem_map]
  constructor
  · rintro ⟨⟨line, hline, hfx⟩, hne⟩
    exact ⟨line, hline, by rw [hfx]; simpa using hne, hfx⟩
  · rintro ⟨line, hline, hne, hfx⟩
    exact ⟨⟨line, hline, hfx⟩, by rw [← hfx]; simpa using hne⟩

/-- C2 (amended): membership testing lower-cases the created file's extension
but compares it verbatim against the trimmed allowlist entries: the file is
judged allowed iff some line trims to a nonempty string equal to the
lower-cased extension.  Hence case differences on the file side never matter
(e.g. "a.TXT" is allowed when the allowlist contains ".txt"), but an entry
containing an upper-case letter is not matched by the lower-cased extension
(see the counterexample). -/
theorem c2_isAllowedExtension_spec :
    (∀ (lines : List String) (fileName : String),
      isAllowedExtension fileName (loadAllowedExtensions lines) = true ↔
        ∃ line ∈ lines, goTrimSpace line ≠ ""
          ∧ goTrimSpace line = goToLower (filepathExt fileName))
    ∧ (∀ (allowedExtensions : List String) (n1 n2 : String),
        goToLower (filepathExt n1) = goToLower (filepathExt n2) →
        isAllowedExtension n1 allowedExtensions = isAllowedExtension n2 allowedExtensions)
    ∧ isAllowedExtension ("a.TXT") (loadAllowedExtensions [".txt"]) = true := by
  refine ⟨isAllowedExtension_load_iff, ?_, by decide⟩
  intro aE n1 n2 h
  unfold isAllowedExtension
  rw [h]

/-- C2 counterexample: the allowlist entry ".TXT" equals the extension of
"a.txt" under case-insensitive comparison of the trimmed entry, yet the file is
judged not allowed — membership testing is not case-insensitive on the entry
side. -/
theorem c2_uppercase_entry_cex :
    goToLower (goTrimSpace (".TXT")) = goToLower (filepathExt ("a.txt"))
    ∧ isAllowedExtension ("a.txt") (loadAllowedExtensions [".TXT"]) = false := by
  refine ⟨by decide, by decide⟩

/-- C2 witness: two files whose extensions differ only by case get the same
membership verdict. -/
theorem c2_isAllowedExtension_spec_witness :
    isAllowedExtension ("b.TXT") (loadAllowedExtensions [".txt"])
      = isAllowedExtension ("c.txt") (loadAllowedExtensions [".txt"]) :=
  c2_isAllowedExtension_spec.2.1 (loadAllowedExtensions [".txt"]) ("b.TXT") ("c.txt")
    (by decide)

/-- For an allowed extension the filter-gated block is just the event log line
(when matched). -/
theorem filterBlock_allowed (events aE : List String) (ev : Event)
    (removeRes : RemoveResult) (notifyRes : Option String)
    (hall : isAllowedExtension ev.name aE = true) :
    filterBlock events aE ev removeRes notifyRes
      = if containsEvent events ev.op then
          [FsAction.logInfo ("Event: " ++ opString ev.op ++ " on file: " ++ ev.name)]
        else [] := by
  simp [filterBlock, enforcementBlock, hall]

/-- The directory-registration block never removes a file. -/
theorem removeFile_not_mem_dirBlock (ev : Event) (stat : StatRes) (addRes : Option String)
    (p : String) : FsAction.removeFile p ∉ dirBlock ev stat addRes := by
  unfold dirBlock
  split
  · cases stat <;> cases addRes <;> simp
  · simp

/-- C8 (amended): for every created file whose lower-cased extension is present
verbatim in the loaded set, handling the event performs no removal and issues
no notification, whatever the filter, the stat outcome and the oracles. -/
theorem c8_allowed_no_removal :
    ∀ (events allowedExtensions : List String) (ev : Event) (stat : StatRes)
      (removeRes : RemoveResult) (notifyRes addRes : Option String),
      isAllowedExtension ev.name allowedExtensions = true →
      (∀ p, FsAction.removeFile p
          ∉ processEventsStep events allowedExtensions ev stat removeRes notifyRes addRes)
      ∧ (∀ t b, FsAction.notify t b
          ∉ processEventsStep events allowedExtensions ev stat removeRes notifyRes addRes) := by
  intro events aE ev stat removeRes notifyRes addRes hall
  have hf := filterBlock_allowed events aE ev removeRes notifyRes hall
  constructor
  · intro p hp
    simp only [processEventsStep, List.mem_append] at hp
    rcases hp with h1 | h2
    · rw [hf] at h1
      split at h1 <;> simp at h1
    · exact removeFile_not_mem_dirBlock ev stat addRes p h2
  · intro t b hb
    simp only [processEventsStep, List.mem_append] at hb
    rcases hb with h1 | h2
    · rw [hf] at h1
      split at h1 <;> simp at h1
    · exact notify_not_mem_dirBlock ev stat addRes t b h2

/-- C8 counterexample: with the allowlist file containing ".TXT", the created
file "a.txt" has its extension present in the loaded set under case-insensitive
comparison, yet handling the Create event removes the file. -/
theorem c8_case_insensitive_presence_cex :
    goToLower (goTrimSpace (".TXT")) = goToLower (filepathExt ("a.txt"))
    ∧ FsAction.removeFile ("a.txt")
        ∈ processEventsStep ["create"] (loadAllowedExtensions [".TXT"])
            ⟨"a.txt", fsnotifyCreate⟩ .isFile .ok none none := by
  refine ⟨by decide, by decide⟩

/-- C8 witness: an allowed creation ("notes.txt" with ".txt" allowlisted) is
not removed. -/
theorem c8_allowed_no_removal_witness :
    FsAction.removeFile ("notes.txt")
      ∉ processEventsStep ["create"] (loadAllowedExtensions [".txt"])
          ⟨"notes.txt", fsnotifyCreate⟩ .isFile .ok none none :=
  (c8_allowed_no_removal ["create"] (loadAllowedExtensions [".txt"])
    ⟨"notes.txt", fsnotifyCreate⟩ .isFile .ok none none (by decide)).1 ("notes.txt")

/-- A segment is a leading segment of itself followed by anything. -/
theorem segStartsWith_self_append (pat rest : List Char) :
    segStartsWith pat (pat ++ rest) = true := by
  induction pat with
  | nil => simp [segStartsWith]
  | cons p ps ih => simp [segStartsWith, ih]

/-- A leading segment occurs in the list. -/
theorem occursIn_of_startsWith (pat l : List Char) (h : segStartsWith pat l = true) :
    occursIn pat l = true := by
  cases l with
  | nil => simpa [occursIn] using h
  | cons c cs => simp [occursIn, h]

/-- A contiguous segment occurs in any list that embeds it between a front and
a back part. -/
theorem occursIn_append_self (pat pre post : List Char) :
    occursIn pat (pre ++ pat ++ post) = true := by
  induction pre with
  | nil => exact occursIn_of_startsWith pat (pat ++ post) (segStartsWith_self_append pat post)
  | cons c cs ih =>
    have h : occursIn pat ((c :: cs) ++ pat ++ post)
        = (segStartsWith pat ((c :: cs) ++ pat ++ post) || occursIn pat (cs ++ pat ++ post)) :=
      rfl
    rw [h, ih, Bool.or_true]

/-- The string append of the v2 rename line decomposes on character lists. -/
theorem strOccursIn_middle (pre mid post : String) :
    strOccursIn mid (pre ++ mid ++ post) = true := by
  unfold strOccursIn
  have h : (pre ++ mid ++ post).data = pre.data ++ mid.data ++ post.data := rfl
  rw [h]
  exact occursIn_append_self mid.data pre.data post.data

/-- A trailing string occurs in the append that ends with it. -/
theorem strOccursIn_last (pre last : String) :
    strOccursIn last (pre ++ last) = true := by
  unfold strOccursIn
  have : (pre ++ last).data = pre.data ++ last.data ++ [] := by simp
  rw [this]
  exact occursIn_append_self last.data pre.data []

/-- C5 (amended): in the fsnotify-based watcher every matched event — rename
included — is logged with the single-path form "Event: <kind> on file: <path>"
as the first action of the step (fsnotify events carry no previous path); the
two-path form exists only in the polling-watcher variant (filewatcher-v2.go),
whose rename and move lines are "File renamed: <old_path> to <new_path>" and
"File moved: <old_path> to <new_path>" and contain both paths, its simple
kinds using "File created/removed/modified: <path>". -/
theorem c5_log_line_forms :
    (∀ (events allowedExtensions : List String) (ev : Event) (stat : StatRes)
        (removeRes : RemoveResult) (notifyRes addRes : Option String),
      containsEvent events ev.op = true →
      (processEventsStep events allowedExtensions ev stat removeRes notifyRes addRes).head?
        = some (FsAction.logInfo ("Event: " ++ opString ev.op ++ " on file: " ++ ev.name)))
    ∧ (∀ oldPath path : String,
        v2LogLine WOp.rename oldPath path = "File renamed: " ++ oldPath ++ " to " ++ path
        ∧ v2LogLine WOp.move oldPath path = "File moved: " ++ oldPath ++ " to " ++ path
        ∧ strOccursIn oldPath (v2LogLine WOp.rename oldPath path) = true
        ∧ strOccursIn path (v2LogLine WOp.rename oldPath path) = true) := by
  constructor
  · intro events aE ev stat removeRes notifyRes addRes h
    simp [processEventsStep, filterBlock, h]
  · intro oldPath path
    refine ⟨rfl, rfl, ?_, ?_⟩
    · have h : v2LogLine WOp.rename oldPath path
          = "File renamed: " ++ oldPath ++ (" to " ++ path) := by
        simp [v2LogLine, String.append_assoc]
      rw [h]
      exact strOccursIn_middle ("File renamed: ") oldPath (" to " ++ path)
    · have h : v2LogLine WOp.rename oldPath path
          = ("File renamed: " ++ oldPath ++ " to ") ++ path := by
        simp [v2LogLine, String.append_assoc]
      rw [h]
      exact strOccursIn_last ("File renamed: " ++ oldPath ++ " to ") path

/-- C5 counterexample: a matched Rename event in the fsnotify-based watcher
produces only the one-path line "Event: RENAME on file: a.txt", which is not of
the form "<kind>: <old_path> to <new_path>" — it does not even contain the
separator " to ", let alone both paths. -/
theorem c5_v8_rename_single_path_cex :
    containsEvent ["rename"] fsnotifyRename = true
    ∧ processEventsStep ["rename"] (loadAllowedExtensions [".txt"]) ⟨"a.txt", fsnotifyRename⟩
        .isFile .ok none none
      = [FsAction.logInfo ("Event: RENAME on file: a.txt")]
    ∧ strOccursIn (" to ") ("Event: RENAME on file: a.txt") = false := by
  refine ⟨by decide, by decide, by decide⟩

/-- C5 witness: the first action of a matched Create event is the simple-form
log line. -/
theorem c5_log_line_forms_witness :
    (processEventsStep ["create"] (loadAllowedExtensions [".txt"])
        ⟨"notes.txt", fsnotifyCreate⟩ .isFile .ok none none).head?
      = some (FsAction.logInfo
          ("Event: " ++ opString fsnotifyCreate ++ " on file: " ++ "notes.txt")) :=
  c5_log_line_forms.1 ["create"] (loadAllowedExtensions [".txt"])
    ⟨"notes.txt", fsnotifyCreate⟩ .isFile .ok none none (by decide)

/-- If some directory in the walk's visit sequence fails to register, the whole
walk returns an error (`filepath.Walk` aborts at the first callback error). -/
theorem addWatchRecursive_fails (ok : String → Bool) :
    ∀ entries : List WalkEntry,
      (∃ e ∈ entries, e.isDir = true ∧ ok e.path = false) →
      ∃ m, addWatchRecursive ok entries = .error m := by
  intro entries
  induction entries with
  | nil =>
    rintro ⟨e, he, _⟩
    cases he
  | cons a rest ih =>
    rintro ⟨e, he, hd, hok⟩
    rcases List.mem_cons.mp he with rfl | hrest
    · refine ⟨"could not add directory to watcher: " ++ e.path, ?_⟩
      simp [addWatchRecursive, hd, hok]
    · by_cases ha : a.isDir
      · by_cases hoka : ok a.path
        · obtain ⟨m, hm⟩ := ih ⟨e, hrest, hd, hok⟩
          refine ⟨m, ?_⟩
          simp [addWatchRecursive, ha, hoka, hm]
        · refine ⟨"could not add directory to watcher: " ++ a.path, ?_⟩
          simp [addWatchRecursive, ha, hoka]
      · obtain ⟨m, hm⟩ := ih ⟨e, hrest, hd, hok⟩
        refine ⟨m, ?_⟩
        simp [addWatchRecursive, ha, hm]

/-- C7: a registration failure during the initial recursive walk is fatal —
`addWatchRecursive` returns an error and `main` terminates via `Fatalf` — while
a failure to register a newly created directory at runtime is non-fatal: the
loop logs the error and keeps running. -/
theorem c7_walk_fatal_runtime_nonfatal :
    ∀ (ok : String → Bool) (entries : List WalkEntry)
      (events allowedExtensions S : List String) (ev : Event) (m : String)
      (removeRes : RemoveResult) (notifyRes : Option String),
      ((∃ e ∈ entries, e.isDir = true ∧ ok e.path = false) →
        ∃ fm, startupWatch ok entries = StartupOutcome.fatal fm)
      ∧ ((ev.op &&& fsnotifyCreate == fsnotifyCreate) = true →
          (loopStep events allowedExtensions S
              (LoopInput.fsEvent ev .isDir removeRes notifyRes (some m))).keepRunning = true
          ∧ FsAction.logError ("Failed to add new directory to watcher: " ++ m)
              ∈ (loopStep events allowedExtensions S
                  (LoopInput.fsEvent ev .isDir removeRes notifyRes (some m))).actions) := by
  intro ok entries events aE S ev m removeRes notifyRes
  constructor
  · intro hfail
    obtain ⟨em, hm⟩ := addWatchRecursive_fails ok entries hfail
    exact ⟨"Failed to add directory to watcher: " ++ em, by simp [startupWatch, hm]⟩
  · intro hc
    refine ⟨rfl, ?_⟩
    simp [loopStep, processEventsStep, dirBlock, hc]

/-- C7 witness: a failing registration of the root makes startup fatal, and a
failing runtime registration keeps the loop running with an error logged. -/
theorem c7_walk_fatal_runtime_nonfatal_witness :
    (∃ fm, startupWatch (fun _ => false) [⟨"root", true⟩] = StartupOutcome.fatal fm)
    ∧ ((loopStep ["create"] [] []
          (LoopInput.fsEvent ⟨"d", fsnotifyCreate⟩ .isDir .ok none
            (some ("denied")))).keepRunning = true
       ∧ FsAction.logError ("Failed to add new directory to watcher: " ++ "denied")
           ∈ (loopStep ["create"] [] []
               (LoopInput.fsEvent ⟨"d", fsnotifyCreate⟩ .isDir .ok none
                 (some ("denied")))).actions) := by
  have h := c7_walk_fatal_runtime_nonfatal (fun _ => false) [⟨"root", true⟩]
    ["create"] [] [] ⟨"d", fsnotifyCreate⟩ ("denied") .ok none
  exact ⟨h.1 ⟨⟨"root", true⟩, by decide, rfl, rfl⟩, h.2 (by decide)⟩

/-- `watcher.Add` either leaves the watch set unchanged or appends one new
path. -/
theorem insertWatch_cases (S : List String) (p : String) :
    insertWatch S p = S ∨ (p ∉ S ∧ insertWatch S p = S ++ [p]) := by
  by_cases h : p ∈ S
  · have hb : S.contains p = true := List.elem_iff.mpr h
    exact Or.inl (by unfold insertWatch; simp [hb, h])
  · have hb : S.contains p = false :=
      Bool.eq_false_iff.mpr (fun hc => h (List.elem_iff.mp hc))
    exact Or.inr ⟨h, by unfold insertWatch; simp [hb, h]⟩

/-- `watcher.Add` never loses a registered path. -/
theorem mem_insertWatch (S : List String) (p q : String) (h : q ∈ S) :
    q ∈ insertWatch S p := by
  unfold insertWatch
  split
  · exact h
  · exact List.mem_append_left _ h

/-- One loop iteration never loses a registered path. -/
theorem mem_loopStep_watchSet (events aE S : List String) (inp : LoopInput) (p : String)
    (h : p ∈ S) : p ∈ (loopStep events aE S inp).watchSet := by
  cases inp with
  | fsEvent ev stat removeRes notifyRes addRes =>
    simp only [loopStep]
    split
    · exact mem_insertWatch S ev.name p h
    · exact h
  | fsError m => exact h
  | eventsClosed => exact h
  | errorsClosed => exact h

/-- C9: the watch set grows monotonically — each loop iteration either leaves
it unchanged or appends one new path, and across any run of the loop every
registered path stays registered (nothing is ever removed, in particular not on
Remove events for deleted directories). -/
theorem c9_watchset_monotone :
    ∀ (events allowedExtensions S : List String) (inp : LoopInput),
      ((loopStep events allowedExtensions S inp).watchSet = S
        ∨ ∃ q, q ∉ S ∧ (loopStep events allowedExtensions S inp).watchSet = S ++ [q])
      ∧ (∀ p, p ∈ S → p ∈ (loopStep events allowedExtensions S inp).watchSet)
      ∧ (∀ (inputs : List LoopInput) (p : String), p ∈ S →
          p ∈ runLoop events allowedExtensions S inputs) := by
  intro events aE S inp
  refine ⟨?_, mem_loopStep_watchSet events aE S inp, ?_⟩
  · cases inp with
    | fsEvent ev stat removeRes notifyRes addRes =>
      simp only [loopStep]
      split
      · rcases insertWatch_cases S ev.name with h | ⟨h1, h2⟩
        · exact Or.inl h
        · exact Or.inr ⟨ev.name, h1, h2⟩
      · exact Or.inl rfl
    | fsError m => exact Or.inl rfl
    | eventsClosed => exact Or.inl rfl
    | errorsClosed => exact Or.inl rfl
  · intro inputs
    induction inputs generalizing S with
    | nil => intro p h; exact h
    | cons i is ih =>
      intro p h
      simp only [runLoop]
      split
      · exact ih _ p (mem_loopStep_watchSet events aE S i p h)
      · exact mem_loopStep_watchSet events aE S i p h

/-- C9 witness: a previously watched path survives a run that registers a new
directory and services an error and a remove event. -/
theorem c9_watchset_monotone_witness :
    "w" ∈ runLoop ["create"] [] ["w"]
        [LoopInput.fsEvent ⟨"d", fsnotifyCreate⟩ .isDir .ok none none,
         LoopInput.fsError ("boom"),
         LoopInput.fsEvent ⟨"w", fsnotifyRemove⟩ (.statError ("gone")) .ok none none] :=
  (c9_watchset_monotone ["create"] [] ["w"] LoopInput.eventsClosed).2.2
    [LoopInput.fsEvent ⟨"d", fsnotifyCreate⟩ .isDir .ok none none,
     LoopInput.fsError ("boom"),
     LoopInput.fsEvent ⟨"w", fsnotifyRemove⟩ (.statError ("gone")) .ok none none]
    "w" (by decide)

/-- The empty extension is never a member of a loaded allowlist: the loader
keeps only lines that trim to a nonempty string. -/
theorem empty_ext_not_allowed (lines : List String) (fileName : String)
    (h : filepathExt fileName = "") :
    isAllowedExtension fileName (loadAllowedExtensions lines) = false := by
  rw [Bool.eq_false_iff]
  intro htrue
  obtain ⟨line, _, hne, heq⟩ := (isAllowedExtension_load_iff lines fileName).mp htrue
  rw [h] at heq
  have hlow : goToLower ("") = "" := rfl
  rw [hlow] at heq
  exact hne heq

/-- C10 (amended): a created file whose name has no extension can never be
allowed — the loader skips lines that trim to blank, so the empty extension is
never a member of the loaded set, whatever the allowlist file's contents — and
whenever its Create event matches the configured filter, the file is removed. -/
theorem c10_empty_extension_disallowed :
    ∀ (lines : List String) (fileName : String),
      filepathExt fileName = "" →
      isAllowedExtension fileName (loadAllowedExtensions lines) = false
      ∧ (∀ (events : List String) (ev : Event) (stat : StatRes)
           (removeRes : RemoveResult) (notifyRes addRes : Option String),
          ev.name = fileName →
          containsEvent events ev.op = true →
          (ev.op &&& fsnotifyCreate == fsnotifyCreate) = true →
          FsAction.removeFile fileName
            ∈ processEventsStep events (loadAllowedExtensions lines) ev stat removeRes
                notifyRes addRes) := by
  intro lines fileName h
  refine ⟨empty_ext_not_allowed lines fileName h, ?_⟩
  intro events ev stat removeRes notifyRes addRes hname h1 h2
  subst hname
  have hd : isAllowedExtension ev.name (loadAllowedExtensions lines) = false :=
    empty_ext_not_allowed lines ev.name h
  cases removeRes <;> cases notifyRes <;>
    simp [processEventsStep, filterBlock, enforcementBlock, handleDisallowedFile, h1, h2, hd]

/-- C10 counterexample: the extension-less file "README" is indeed never
allowed, but with the filter configured as just "chmod" its Create event is
handled with no removal at all — the removal half of the claim fails for Create
events that match zero configured kinds. -/
theorem c10_no_extension_filter_cex :
    filepathExt ("README") = ""
    ∧ processEventsStep ["chmod"] (loadAllowedExtensions [".md"]) ⟨"README", fsnotifyCreate⟩
        .isFile .ok none none = [] := by
  refine ⟨by decide, by decide⟩

/-- C10 witness: "README" is disallowed under an arbitrary allowlist and its
matched creation leads to a removal call. -/
theorem c10_empty_extension_disallowed_witness :
    isAllowedExtension ("README") (loadAllowedExtensions [".txt"]) = false
    ∧ FsAction.removeFile ("README")
        ∈ processEventsStep ["create"] (loadAllowedExtensions [".txt"])
            ⟨"README", fsnotifyCreate⟩ .isFile .ok none none := by
  have h := c10_empty_extension_disallowed [".txt"] ("README") (by decide)
  exact ⟨h.1, h.2 ["create"] ⟨"README", fsnotifyCreate⟩ .isFile .ok none none rfl
    (by decide) (by decide)⟩
